import Mathlib

/-!
Verification development for the PhyoYazar/blockchain repository.

The Go sources under `foundation/blockchain/database` (database.go, block.go)
and `foundation/blockchain/state` are embedded shallowly:

* Go `uint64` arithmetic is `Nat` with explicit wrapping (`add64`, `sub64`,
  `mul64` below); the `uint16` increment in `isHashSolved` wraps at `2^16`.
* Go strings that hold hashes are `List Char`; the out-of-range string
  slice `s[:k]` (a Go panic) is the `none` branch of `goSlice`.
* The account map is an association list with in-place update, mirroring the
  read-local / write-back pattern of the Go code.
* Signature recovery (`tx.FromAccount()`, keccak/secp256k1) is not
  embeddable; its outcome is carried on the transaction as an
  `Option AccountID` field, exactly as `ApplyTransaction` consumes it.
-/

namespace BlockchainSpec

/-- Modulus of Go `uint64` arithmetic. -/
def W64 : Nat := 2 ^ 64

/-- Go `uint64` addition (wraps at `2^64`). -/
def add64 (a b : Nat) : Nat := (a + b) % W64

/-- Go `uint64` subtraction (wraps at `2^64`; callers keep both arguments below `W64`). -/
def sub64 (a b : Nat) : Nat := (a + W64 - b) % W64

/-- Go `uint64` multiplication (wraps at `2^64`). -/
def mul64 (a b : Nat) : Nat := (a * b) % W64

/-- Go `int64` reading of a `uint64` value, used by `time.Unix` in the
timestamp comparison of `ValidateBlock`. -/
def toInt64 (n : Nat) : Int := if n < 2 ^ 63 then (n : Int) else (n : Int) - 2 ^ 64

/-- Account addresses (Go `AccountID`, a string-rendered 20-byte address). -/
abbrev AccountID := String

/-- Account from database.go: identifier, balance and nonce. -/
structure Account where
  id : AccountID
  balance : Nat
  nonce : Nat
deriving DecidableEq, Repr

/-- Go `newAccount(accountID, balance)`: fresh account with zero nonce. -/
def newAccount (accountID : AccountID) (balance : Nat) : Account :=
  { id := accountID, balance := balance, nonce := 0 }

/-- The in-memory account map `db.accounts`, as an association list. -/
abbrev Accounts := List (AccountID × Account)

/-- Map read `db.accounts[k]` returning whether the key is present. -/
def lookupAccount (accs : Accounts) (k : AccountID) : Option Account :=
  (accs.find? (fun p => p.1 == k)).map (fun p => p.2)

/-- Map write `db.accounts[k] = v` (replace in place, append if absent). -/
def setAccount (accs : Accounts) (k : AccountID) (v : Account) : Accounts :=
  match accs with
  | [] => [(k, v)]
  | (k', v') :: rest =>
    if k' = k then (k, v) :: rest else (k', v') :: setAccount rest k v

/-- Read of `db.accounts[id]` followed by the `if !exists` fault-in of
`ApplyTransaction` (a missing account behaves as `newAccount(id, 0)`). -/
def getAccount (accs : Accounts) (k : AccountID) : Account :=
  (lookupAccount accs k).getD (newAccount k 0)

/-- BlockTx from the transaction model: the fields `ApplyTransaction`, the
mempool and the miner read.  `recoveredFrom` is the outcome of
`tx.FromAccount()` (signature recovery), carried as data. -/
structure BlockTx where
  recoveredFrom : Option AccountID
  fromID : AccountID
  toID : AccountID
  chainID : Nat
  nonce : Nat
  value : Nat
  tip : Nat
  gasPrice : Nat
  gasUnits : Nat
  timeStamp : Nat
deriving DecidableEq, Repr

/-- BlockHeader from block.go. Hash-valued fields are `List Char`. -/
structure BlockHeader where
  number : Nat
  prevBlockHash : List Char
  timeStamp : Nat
  beneficiaryID : AccountID
  difficulty : Nat
  miningReward : Nat
  stateRoot : List Char
  transRoot : List Char
  nonce : Nat
deriving DecidableEq, Repr

/-- Block from block.go; `trans` stands for `MerkleTree.Values()`. -/
structure Block where
  header : BlockHeader
  trans : List BlockTx
deriving DecidableEq, Repr

/-- Error tags of `ApplyTransaction` (database.go returns them as `fmt.Errorf`
values; the tags follow the spec's error kinds). -/
inductive TxError where
  | badSignature
  | wrongChainID
  | selfTransfer
  | nonceTooSmall
  | insufficientFunds
deriving DecidableEq, Repr

/-- Gas fee of database.go lines 151-154: `gasFee := tx.GasPrice * tx.GasUnits`
clamped down to the sender's balance when it exceeds it. -/
def clampedGasFee (tx : BlockTx) (fromBalance : Nat) : Nat :=
  let gasFee := mul64 tx.gasPrice tx.gasUnits
  if gasFee > fromBalance then fromBalance else gasFee

/-- Body of `ApplyTransaction` after signature recovery succeeded with sender
`fromID` (database.go lines 129-198).  The three accounts are read up front as
local copies; the gas-fee-adjusted `from` and `bnfc` are written back before
the checks, and the final three writes happen in the order `from`, `to`,
`bnfc`, exactly as in the source. -/
def applyTransactionBody (genesisChainID : Nat) (accounts : Accounts)
    (block : Block) (tx : BlockTx) (fromID : AccountID) :
    Accounts × Option TxError :=
  let from0 := getAccount accounts fromID
  let to0 := getAccount accounts tx.toID
  let bnfc0 := getAccount accounts block.header.beneficiaryID
  let gasFee := clampedGasFee tx from0.balance
  -- gasFee ≤ from0.balance by the clamp, so uint64 subtraction is exact here.
  let from1 : Account := { from0 with balance := from0.balance - gasFee }
  let bnfc1 : Account := { bnfc0 with balance := add64 bnfc0.balance gasFee }
  let accounts1 := setAccount (setAccount accounts fromID from1)
      block.header.beneficiaryID bnfc1
  if tx.chainID ≠ genesisChainID then (accounts1, some .wrongChainID)
  else if fromID = tx.toID then (accounts1, some .selfTransfer)
  else if tx.nonce ≤ from1.nonce then (accounts1, some .nonceTooSmall)
  else if from1.balance = 0 ∨ from1.balance < add64 tx.value tx.tip then
    (accounts1, some .insufficientFunds)
  else
    let from2 : Account :=
      { from1 with balance := sub64 (sub64 from1.balance tx.value) tx.tip,
                   nonce := tx.nonce }
    let to2 : Account := { to0 with balance := add64 to0.balance tx.value }
    let bnfc2 : Account := { bnfc1 with balance := add64 bnfc1.balance tx.tip }
    (setAccount (setAccount (setAccount accounts1 fromID from2) tx.toID to2)
      block.header.beneficiaryID bnfc2, none)

/-- ApplyTransaction from database.go: recover the sender, then run the body;
returns the updated account map together with the error, if any. -/
def applyTransaction (genesisChainID : Nat) (accounts : Accounts)
    (block : Block) (tx : BlockTx) : Accounts × Option TxError :=
  match tx.recoveredFrom with
  | none => (accounts, some .badSignature)
  | some fromID => applyTransactionBody genesisChainID accounts block tx fromID

/-- ApplyMiningReward from database.go: credit the beneficiary with the
block's mining reward.  The Go code reads the map without an exists-check, so
a missing beneficiary starts from the zero `Account` value (empty id). -/
def applyMiningReward (accounts : Accounts) (block : Block) : Accounts :=
  let account := (lookupAccount accounts block.header.beneficiaryID).getD
    { id := "", balance := 0, nonce := 0 }
  setAccount accounts block.header.beneficiaryID
    { account with balance := add64 account.balance block.header.miningReward }

/-- Application of a whole block: every transaction through
`ApplyTransaction` in order (errors abort the transaction, not the block),
then `ApplyMiningReward` — the loop the spec places in
`validate_update_database`. -/
def applyBlock (genesisChainID : Nat) (accounts : Accounts) (block : Block) :
    Accounts :=
  applyMiningReward
    (block.trans.foldl (fun accs tx => (applyTransaction genesisChainID accs block tx).1)
      accounts)
    block

/-- Total balance held by the account map. -/
def sumBalances (accs : Accounts) : Nat :=
  (accs.map (fun p => p.2.balance)).sum

/-- ZeroHash from the signature package: the 66-character string
`0x` followed by 64 zeros. -/
def zeroHash : List Char := '0' :: 'x' :: List.replicate 64 '0'

/-- The comparison constant `match` of `isHashSolved` (block.go line 165):
the 19-character string `"0x00000000000000000"` (`0x` plus 17 zeros). -/
def matchHash : List Char := '0' :: 'x' :: List.replicate 17 '0'

/-- Go string slice `s[:k]`: the prefix of length `k` when `k ≤ len(s)`,
a runtime panic (here `none`) otherwise. -/
def goSlice (s : List Char) (k : Nat) : Option (List Char) :=
  if k ≤ s.length then some (s.take k) else none

/-- The function `isHashSolved` of block.go lines 164-173.  The hash must be 66
characters long; then `difficulty += 2` (a `uint16` increment, wrapping at
`2^16`) and the prefixes `hash[:difficulty]` and `match[:difficulty]` are
compared.  An out-of-range slice is a Go panic, returned here as `none`. -/
def isHashSolved (difficulty : Nat) (hash : List Char) : Option Bool :=
  if hash.length ≠ 66 then some false
  else
    let d := (difficulty + 2) % 2 ^ 16
    match goSlice hash d, goSlice matchHash d with
    | some a, some b => some (decide (a = b))
    | _, _ => none

/-- Block.Hash from block.go: `ZeroHash` for the genesis block number 0, the
header hash otherwise.  Keccak-256 is not embeddable, so the header hash
function is a parameter. -/
def blockHash (hashFn : BlockHeader → List Char) (b : Block) : List Char :=
  if b.header.number = 0 then zeroHash else hashFn b.header

/-- Error tags of `ValidateBlock` (block.go lines 93-160): `chainForked` is
the sentinel `ErrChainForked`; every other tag is one of the generic
`fmt.Errorf` block-invalid failures, in source order. -/
inductive ValidateErr where
  | chainForked
  | badDifficulty
  | hashNotSolved
  | wrongNumber
  | badParentHash
  | badTimestamp
  | badStateRoot
  | badTransRoot
deriving DecidableEq, Repr

/-- ValidateBlock from block.go.  `rootHex` stands for
`b.MerkleTree.RootHex()` (keccak over the tree, parametrized).  The outer
`Option` is `none` when `isHashSolved` panics on its slice; `some none` means
the block is valid; `some (some e)` is the returned error. -/
def validateBlock (hashFn : BlockHeader → List Char)
    (rootHex : Block → List Char) (b previousBlock : Block)
    (stateRoot : List Char) : Option (Option ValidateErr) :=
  let nextNumber := add64 previousBlock.header.number 1
  -- Go: if b.Header.Number >= (nextNumber + 2), computed in uint64.
  if b.header.number ≥ (nextNumber + 2) % W64 then some (some .chainForked)
  else if b.header.difficulty < previousBlock.header.difficulty then
    some (some .badDifficulty)
  else
    match isHashSolved b.header.difficulty (blockHash hashFn b) with
    | none => none
    | some false => some (some .hashNotSolved)
    | some true =>
      if b.header.number ≠ nextNumber then some (some .wrongNumber)
      else if b.header.prevBlockHash ≠ blockHash hashFn previousBlock then
        some (some .badParentHash)
      else if 0 < previousBlock.header.timeStamp ∧
          toInt64 b.header.timeStamp < toInt64 previousBlock.header.timeStamp then
        some (some .badTimestamp)
      else if b.header.stateRoot ≠ stateRoot then some (some .badStateRoot)
      else if b.header.transRoot ≠ rootHex b then some (some .badTransRoot)
      else some none

/-- Modelled from the spec: the mempool key of §4.7 (the mempool package is
not among the provided sources), `from_addr + ":" + decimal(tx.nonce)`. -/
def mempoolKey (tx : BlockTx) : String :=
  tx.fromID ++ ":" ++ toString tx.nonce

/-- Modelled from the spec: `pick_best` comparison of §4.7 — descending tip,
ties broken by earlier `time_stamp`, then by key ascending. -/
def txBefore (a b : String × BlockTx) : Bool :=
  if a.2.tip ≠ b.2.tip then decide (b.2.tip < a.2.tip)
  else if a.2.timeStamp ≠ b.2.timeStamp then decide (a.2.timeStamp < b.2.timeStamp)
  else decide (compare a.1 b.1 ≠ Ordering.gt)

/-- Insertion step of the `pick_best` sort. -/
def insertTx (x : String × BlockTx) : List (String × BlockTx) → List (String × BlockTx)
  | [] => [x]
  | y :: ys => if txBefore x y then x :: y :: ys else y :: insertTx x ys

/-- Insertion sort backing `pick_best`. -/
def sortTxs : List (String × BlockTx) → List (String × BlockTx)
  | [] => []
  | x :: xs => insertTx x (sortTxs xs)

/-- Modelled from the spec: `pick_best(n)` of §4.7 (the mempool package is
not among the provided sources): sort, then return the first `n` values
(`n = 0` returns all). -/
def pickBest (pool : List (String × BlockTx)) (n : Nat) : List BlockTx :=
  let sorted := (sortTxs pool).map (fun p => p.2)
  if n = 0 then sorted else sorted.take n

/-- Modelled from the spec: mempool `delete(btx)` of §4.7 — remove by key, no
error on absence. -/
def mempoolDelete (pool : List (String × BlockTx)) (tx : BlockTx) :
    List (String × BlockTx) :=
  pool.filter (fun p => p.1 != mempoolKey tx)

/-- Genesis fields used by the miner (genesis package not among the provided
sources; fields as the spec's §3 data model gives them). -/
structure Genesis where
  chainID : Nat
  difficulty : Nat
  miningReward : Nat
  transPerBlock : Nat
deriving DecidableEq, Repr

/-- State of one node as `MineNewBlock` sees it: genesis, the beneficiary,
the account database with its latest block, the mempool, and the record of
blocks handed to `storage.Write`. -/
structure NodeState where
  genesis : Genesis
  beneficiaryID : AccountID
  accounts : Accounts
  latestBlock : Block
  mempool : List (String × BlockTx)
  storageWrites : List Block
deriving DecidableEq, Repr

/-- Errors surfaced by `MineNewBlock`: an empty mempool, or a cancelled
context (the value of `ctx.Err()` / the PoW cancellation). -/
inductive MineErr where
  | noTransactions
  | cancelled
deriving DecidableEq, Repr

/-- Non-deterministic inputs of one `MineNewBlock` run: the header hash and
merkle-root functions (keccak, parametrized), whether the context got
cancelled during and right after the PoW search, and the nonce and timestamp
the search produced. -/
structure MineEnv where
  hashFn : BlockHeader → List Char
  transRootOf : List BlockTx → List Char
  powCancelled : Bool
  ctxDoneAfterPow : Bool
  solvedNonce : Nat
  powTimeStamp : Nat

/-- Modelled from the spec: `POW` of §4.6 (the mining package is not among
the provided sources).  The nonce search is abstracted by the nonce it
returns; cancellation during the loop returns the cancellation error and the
assembled block follows §4.6 steps 1-2. -/
def POW (env : MineEnv) (beneficiaryID : AccountID)
    (difficulty miningReward : Nat) (prevBlock : Block) (stateRoot : List Char)
    (trans : List BlockTx) : Except MineErr Block :=
  if env.powCancelled then .error .cancelled
  else .ok {
    header := {
      number := add64 prevBlock.header.number 1
      prevBlockHash := blockHash env.hashFn prevBlock
      timeStamp := env.powTimeStamp
      beneficiaryID := beneficiaryID
      difficulty := difficulty
      miningReward := miningReward
      stateRoot := stateRoot
      transRoot := env.transRootOf trans
      nonce := env.solvedNonce }
    trans := trans }

/-- MineNewBlock from the state package source: empty-mempool check, pick the
best transactions, run the PoW (cancellable), re-check the context, and then —
with the `validateUpdateDatabase` call commented out in the source ("HACK THIS
FOR NOW") — delete the picked transactions from the mempool and return the
block.  The accounts, latest block and storage are never touched. -/
def mineNewBlock (env : MineEnv) (s : NodeState) :
    Except MineErr Block × NodeState :=
  if s.mempool.length = 0 then (.error .noTransactions, s)
  else
    let trans := pickBest s.mempool s.genesis.transPerBlock
    match POW env s.beneficiaryID s.genesis.difficulty s.genesis.miningReward
        s.latestBlock zeroHash trans with
    | .error e => (.error e, s)
    | .ok block =>
      if env.ctxDoneAfterPow then (.error .cancelled, s)
      else
        (.ok block, { s with mempool := trans.foldl mempoolDelete s.mempool })

/-! Map lemmas for the association-list account store. -/

theorem lookupAccount_setAccount_self (accs : Accounts) (k : AccountID)
    (v : Account) : lookupAccount (setAccount accs k v) k = some v := by
  induction accs with
  | nil => simp [setAccount, lookupAccount]
  | cons p rest ih =>
    obtain ⟨k', v'⟩ := p
    by_cases h : k' = k
    · simp [setAccount, h, lookupAccount]
    · simpa [setAccount, h, lookupAccount, List.find?] using ih

theorem lookupAccount_setAccount_ne (accs : Accounts) (k k2 : AccountID)
    (v : Account) (h : k2 ≠ k) :
    lookupAccount (setAccount accs k v) k2 = lookupAccount accs k2 := by
  have hk : (k == k2) = false := by simp [Ne.symm h]
  induction accs with
  | nil => simp [setAccount, lookupAccount, List.find?, hk]
  | cons p rest ih =>
    obtain ⟨k', v'⟩ := p
    by_cases hkk : k' = k
    · subst hkk
      simp [setAccount, lookupAccount, List.find?, hk]
    · by_cases h2 : k' = k2
      · subst h2
        simp [setAccount, hkk, lookupAccount, List.find?]
      · have h2' : (k' == k2) = false := by simp [h2]
        simpa [setAccount, hkk, lookupAccount, List.find?, h2'] using ih

theorem getAccount_setAccount_self (accs : Accounts) (k : AccountID)
    (v : Account) : getAccount (setAccount accs k v) k = v := by
  simp [getAccount, lookupAccount_setAccount_self]

theorem getAccount_setAccount_ne (accs : Accounts) (k k2 : AccountID)
    (v : Account) (h : k2 ≠ k) :
    getAccount (setAccount accs k v) k2 = getAccount accs k2 := by
  simp [getAccount, lookupAccount_setAccount_ne accs k k2 v h]

theorem applyTransactionBody_fst_of_err (genesisChainID : Nat)
    (accounts : Accounts) (block : Block) (tx : BlockTx) (fromID : AccountID)
    (h : (applyTransactionBody genesisChainID accounts block tx fromID).2 ≠ none) :
    (applyTransactionBody genesisChainID accounts block tx fromID).1 =
      setAccount
        (setAccount accounts fromID
          { getAccount accounts fromID with
              balance := (getAccount accounts fromID).balance -
                clampedGasFee tx (getAccount accounts fromID).balance })
        block.header.beneficiaryID
        { getAccount accounts block.header.beneficiaryID with
            balance := add64 (getAccount accounts block.header.beneficiaryID).balance
              (clampedGasFee tx (getAccount accounts fromID).balance) } := by
  simp only [applyTransactionBody] at h ⊢
  split_ifs at h ⊢ <;> first | rfl | exact absurd rfl h

end BlockchainSpec

namespace BlockchainSpec

/-! Concrete inputs used by the claim theorems below. -/

/-- Transaction whose signature does not recover. -/
def badSigTx : BlockTx :=
  { recoveredFrom := none, fromID := "A", toID := "B", chainID := 1,
    nonce := 1, value := 10, tip := 1, gasPrice := 1, gasUnits := 1,
    timeStamp := 0 }

/-- Account map holding a single funded account `A`. -/
def accsA : Accounts := [("A", { id := "A", balance := 100, nonce := 0 })]

/-- Block whose beneficiary is the sender `A` itself. -/
def blockBnfcA : Block :=
  { header := { number := 1, prevBlockHash := zeroHash, timeStamp := 0,
                beneficiaryID := "A", difficulty := 0, miningReward := 0,
                stateRoot := zeroHash, transRoot := zeroHash, nonce := 0 },
    trans := [] }

/-- Block whose beneficiary is a third account `C`. -/
def blockBnfcC : Block :=
  { header := { number := 1, prevBlockHash := zeroHash, timeStamp := 0,
                beneficiaryID := "C", difficulty := 0, miningReward := 0,
                stateRoot := zeroHash, transRoot := zeroHash, nonce := 0 },
    trans := [] }

/-- Transaction from `A` to `B` with gas fee 10 and a wrong chain id
(relative to a genesis chain id of 2). -/
def feeTx : BlockTx :=
  { recoveredFrom := some "A", fromID := "A", toID := "B", chainID := 1,
    nonce := 1, value := 0, tip := 0, gasPrice := 2, gasUnits := 5,
    timeStamp := 0 }

/-- C10: when signature recovery fails, `ApplyTransaction` returns the
invalid-signature error and leaves the account database completely
unchanged — no account is created and no balance or nonce is touched. -/
theorem applyTransaction_badSignature_unchanged (genesisChainID : Nat)
    (accounts : Accounts) (block : Block) (tx : BlockTx)
    (h : tx.recoveredFrom = none) :
    applyTransaction genesisChainID accounts block tx =
      (accounts, some .badSignature) := by
  unfold applyTransaction
  rw [h]

/-- Witness for C10 at a concrete transaction whose recovery fails. -/
theorem applyTransaction_badSignature_unchanged_spot :
    badSigTx.recoveredFrom = none ∧
    applyTransaction 1 accsA blockBnfcC badSigTx = (accsA, some .badSignature) :=
  ⟨rfl, applyTransaction_badSignature_unchanged 1 accsA blockBnfcC badSigTx rfl⟩

/-- C2 counterexample: with the recovered sender equal to the block's
beneficiary, the final write `db.accounts[beneficiary] = bnfc` overwrites the
fee deduction written for the sender, so the account ends at 110 instead of
100 − 10 = 90: the gas fee is not subtracted from the sender even though the
call returns an error (wrong chain id). -/
theorem applyTransaction_gasFee_alias_counterexample :
    (applyTransaction 2 accsA blockBnfcA feeTx).2 = some .wrongChainID ∧
    (getAccount (applyTransaction 2 accsA blockBnfcA feeTx).1 "A").balance = 110 ∧
    ¬ ((getAccount (applyTransaction 2 accsA blockBnfcA feeTx).1 "A").balance =
        (getAccount accsA "A").balance -
          clampedGasFee feeTx (getAccount accsA "A").balance) := by
  decide

/-- C2 (amended: the recovered sender must differ from the block's
beneficiary): the clamped gas fee `gas_price * gas_units` is subtracted from
the sender and added to the beneficiary, and this transfer persists in the
account database whenever the call returns one of the post-recovery errors
(wrong chain id, self transfer, nonce too small, insufficient funds). -/
theorem applyTransaction_gasFee_persists_on_error (genesisChainID : Nat)
    (accounts : Accounts) (block : Block) (tx : BlockTx) (fromID : AccountID)
    (e : TxError) (hrec : tx.recoveredFrom = some fromID)
    (hne : fromID ≠ block.header.beneficiaryID)
    (herr : (applyTransaction genesisChainID accounts block tx).2 = some e) :
    (getAccount (applyTransaction genesisChainID accounts block tx).1 fromID).balance =
      (getAccount accounts fromID).balance -
        clampedGasFee tx (getAccount accounts fromID).balance ∧
    (getAccount (applyTransaction genesisChainID accounts block tx).1
        block.header.beneficiaryID).balance =
      add64 (getAccount accounts block.header.beneficiaryID).balance
        (clampedGasFee tx (getAccount accounts fromID).balance) := by
  have hbody : applyTransaction genesisChainID accounts block tx =
      applyTransactionBody genesisChainID accounts block tx fromID := by
    unfold applyTransaction
    rw [hrec]
  rw [hbody] at herr ⊢
  have hfst := applyTransactionBody_fst_of_err genesisChainID accounts block tx
    fromID (by rw [herr]; exact Option.some_ne_none e)
  rw [hfst]
  constructor
  · rw [getAccount_setAccount_ne _ _ _ _ hne, getAccount_setAccount_self]
  · rw [getAccount_setAccount_self]

/-- Witness for C2 (amended) at the gas-fee transaction with a third-party
beneficiary `C`: the sender pays the fee of 10, the beneficiary receives it,
and the call fails with the wrong-chain-id error. -/
theorem applyTransaction_gasFee_persists_on_error_spot :
    feeTx.recoveredFrom = some "A" ∧ "A" ≠ "C" ∧
    (applyTransaction 2 accsA blockBnfcC feeTx).2 = some .wrongChainID ∧
    (getAccount (applyTransaction 2 accsA blockBnfcC feeTx).1 "A").balance =
      (getAccount accsA "A").balance -
        clampedGasFee feeTx (getAccount accsA "A").balance ∧
    (getAccount (applyTransaction 2 accsA blockBnfcC feeTx).1 "C").balance =
      add64 (getAccount accsA "C").balance
        (clampedGasFee feeTx (getAccount accsA "A").balance) := by
  refine ⟨rfl, by decide, by decide, ?_⟩
  exact applyTransaction_gasFee_persists_on_error 2 accsA blockBnfcC feeTx "A"
    .wrongChainID rfl (by decide) (by decide)

end BlockchainSpec

namespace BlockchainSpec

/-- Sender `A` with balance 5, to be consumed entirely by the gas fee. -/
def accsLow : Accounts := [("A", { id := "A", balance := 5, nonce := 0 })]

/-- Transaction from `A` to `B` with value 0, tip 0 and gas fee 5. -/
def zeroValueTx : BlockTx :=
  { recoveredFrom := some "A", fromID := "A", toID := "B", chainID := 1,
    nonce := 1, value := 0, tip := 0, gasPrice := 1, gasUnits := 5,
    timeStamp := 0 }

/-- C4 counterexample: checks all pass until the funds check, the post-fee
balance is 0 and `value + tip = 0`, so the balance is not less than
`value + tip` — yet the code returns the insufficient-funds error, because
the source tests `from.Balance == 0 || from.Balance < (tx.Value+tx.Tip)`. -/
theorem applyTransaction_insufficient_iff_counterexample :
    (applyTransaction 1 accsLow blockBnfcC zeroValueTx).2 = some .insufficientFunds ∧
    ¬ ((getAccount accsLow "A").balance -
          clampedGasFee zeroValueTx (getAccount accsLow "A").balance <
        zeroValueTx.value + zeroValueTx.tip) := by
  decide

/-- C4 (amended: the insufficient-funds condition is "post-fee balance is
zero, or less than the uint64 sum `value + tip`"): with a recovered sender,
the four checks fire in source order — wrong chain id first, then self
transfer, then nonce (the transaction nonce must exceed the stored nonce),
then funds on the post-gas-fee balance. -/
theorem applyTransaction_check_order (genesisChainID : Nat)
    (accounts : Accounts) (block : Block) (tx : BlockTx) (fromID : AccountID)
    (hrec : tx.recoveredFrom = some fromID) :
    ((applyTransaction genesisChainID accounts block tx).2 = some .wrongChainID ↔
      tx.chainID ≠ genesisChainID) ∧
    ((applyTransaction genesisChainID accounts block tx).2 = some .selfTransfer ↔
      tx.chainID = genesisChainID ∧ fromID = tx.toID) ∧
    ((applyTransaction genesisChainID accounts block tx).2 = some .nonceTooSmall ↔
      tx.chainID = genesisChainID ∧ fromID ≠ tx.toID ∧
      tx.nonce ≤ (getAccount accounts fromID).nonce) ∧
    ((applyTransaction genesisChainID accounts block tx).2 = some .insufficientFunds ↔
      tx.chainID = genesisChainID ∧ fromID ≠ tx.toID ∧
      (getAccount accounts fromID).nonce < tx.nonce ∧
      ((getAccount accounts fromID).balance -
          clampedGasFee tx (getAccount accounts fromID).balance = 0 ∨
        (getAccount accounts fromID).balance -
            clampedGasFee tx (getAccount accounts fromID).balance <
          add64 tx.value tx.tip)) := by
  have hbody : applyTransaction genesisChainID accounts block tx =
      applyTransactionBody genesisChainID accounts block tx fromID := by
    unfold applyTransaction
    rw [hrec]
  rw [hbody]
  simp only [applyTransactionBody]
  split_ifs with h1 h2 h3 h4 <;> simp_all

/-- Witness for C4 (amended): at the zero-value transaction against genesis
chain id 1, only the insufficient-funds characterization is satisfied. -/
theorem applyTransaction_check_order_spot :
    zeroValueTx.recoveredFrom = some "A" ∧
    ((applyTransaction 1 accsLow blockBnfcC zeroValueTx).2 =
        some .insufficientFunds ↔
      zeroValueTx.chainID = 1 ∧ "A" ≠ zeroValueTx.toID ∧
      (getAccount accsLow "A").nonce < zeroValueTx.nonce ∧
      ((getAccount accsLow "A").balance -
          clampedGasFee zeroValueTx (getAccount accsLow "A").balance = 0 ∨
        (getAccount accsLow "A").balance -
            clampedGasFee zeroValueTx (getAccount accsLow "A").balance <
          add64 zeroValueTx.value zeroValueTx.tip)) :=
  ⟨rfl, (applyTransaction_check_order 1 accsLow blockBnfcC zeroValueTx "A"
    rfl).2.2.2⟩

end BlockchainSpec

namespace BlockchainSpec

/-- For difficulties up to 17 the uint16 increment does not wrap, both slices
are in range, and `isHashSolved` is the prefix comparison of the claim. -/
theorem isHashSolved_eq_some_true (d : Nat) (hd : d ≤ 17) (h : List Char) :
    isHashSolved d h = some true ↔
      h.length = 66 ∧ h.take (2 + d) = '0' :: 'x' :: List.replicate d '0' := by
  have hdd : (d + 2) % 2 ^ 16 = d + 2 := Nat.mod_eq_of_lt (by omega)
  have hm : matchHash.length = 19 := rfl
  by_cases hl : h.length = 66
  · have h1 : goSlice h (d + 2) = some (h.take (d + 2)) := by
      unfold goSlice
      rw [if_pos (by omega)]
    have h2 : goSlice matchHash (d + 2) = some (matchHash.take (d + 2)) := by
      unfold goSlice
      rw [if_pos (by omega)]
    have h3 : matchHash.take (d + 2) = '0' :: 'x' :: List.replicate d '0' := by
      show (('0' : Char) :: 'x' :: List.replicate 17 '0').take (d + 2) = _
      rw [List.take_succ_cons, List.take_succ_cons, List.take_replicate,
        Nat.min_eq_left hd]
    have hcond : ¬ (h.length ≠ 66) := by simp [hl]
    simp only [isHashSolved, if_neg hcond, hdd, h1, h2, h3]
    rw [Nat.add_comm 2 d]
    simp [hl, decide_eq_true_iff]
  · simp [isHashSolved, hl]

/-- C7 counterexample: a 66-character string that does not begin with `0x` is
not solved at difficulty 0, refuting "for d = 0 every 66-character string is
solved". -/
theorem isHashSolved_every66_counterexample :
    (List.replicate 66 'a').length = 66 ∧
    ¬ (isHashSolved 0 (List.replicate 66 'a') = some true) := by
  decide

/-- C7 (amended: at difficulty 0 only the `0x` prefix is required, so the
"every 66-character string" clause holds for strings beginning with `0x`):
for every difficulty at most 17, `isHashSolved` returns true exactly when the
hash is 66 characters long and its first `2 + d` characters are `0x`
followed by `d` zeros. -/
theorem isHashSolved_characterization (d : Nat) (hd : d ≤ 17) (h : List Char) :
    (isHashSolved d h = some true ↔
      h.length = 66 ∧ h.take (2 + d) = '0' :: 'x' :: List.replicate d '0') ∧
    (h.length = 66 → h.take 2 = ['0', 'x'] → isHashSolved 0 h = some true) := by
  refine ⟨isHashSolved_eq_some_true d hd h, fun hl hp => ?_⟩
  exact (isHashSolved_eq_some_true 0 (by omega) h).mpr ⟨hl, by simpa using hp⟩

/-- Witness for C7 (amended) at difficulty 6 and the all-zero hash. -/
theorem isHashSolved_characterization_spot :
    (6 : Nat) ≤ 17 ∧ isHashSolved 6 zeroHash = some true :=
  ⟨by decide, ((isHashSolved_characterization 6 (by decide) zeroHash).1).mpr
    (by decide)⟩

/-- C9 counterexample: difficulty 65534 is at least 18, yet the uint16
increment `difficulty += 2` wraps to 0, both slices are empty, and the
function returns `some true` instead of reaching the out-of-range branch. -/
theorem isHashSolved_uint16_wrap_counterexample :
    (18 : Nat) ≤ 65534 ∧ (List.replicate 66 '0').length = 66 ∧
    isHashSolved 65534 (List.replicate 66 '0') = some true := by
  decide

/-- C9 (amended: the out-of-range slice needs 18 ≤ difficulty ≤ 65533, since
the uint16 increment wraps for 65534 and 65535): on a 66-character hash the
slice `match[:difficulty+2]` (or `hash[:difficulty+2]` for difficulty ≥ 65)
runs past its string, so the guarded embedding's panic branch is reached; and
the branch is unreachable whenever difficulty ≤ 17. -/
theorem isHashSolved_guard_range (d : Nat) (h : List Char) :
    (18 ≤ d → d ≤ 65533 → h.length = 66 → isHashSolved d h = none) ∧
    (d ≤ 17 → isHashSolved d h ≠ none) := by
  have hm : matchHash.length = 19 := rfl
  constructor
  · intro h18 h53 hl
    have hdd : (d + 2) % 2 ^ 16 = d + 2 := Nat.mod_eq_of_lt (by omega)
    have hcond : ¬ (h.length ≠ 66) := by simp [hl]
    by_cases hc : d + 2 ≤ 66
    · have h1 : goSlice h (d + 2) = some (h.take (d + 2)) := by
        unfold goSlice
        rw [if_pos (by omega)]
      have h2 : goSlice matchHash (d + 2) = none := by
        unfold goSlice
        rw [if_neg (by omega)]
      simp only [isHashSolved, if_neg hcond, hdd, h1, h2]
    · have h1 : goSlice h (d + 2) = none := by
        unfold goSlice
        rw [if_neg (by omega)]
      simp only [isHashSolved, if_neg hcond, hdd, h1]
  · intro hd
    by_cases hl : h.length = 66
    · have hdd : (d + 2) % 2 ^ 16 = d + 2 := Nat.mod_eq_of_lt (by omega)
      have hcond : ¬ (h.length ≠ 66) := by simp [hl]
      have h1 : goSlice h (d + 2) = some (h.take (d + 2)) := by
        unfold goSlice
        rw [if_pos (by omega)]
      have h2 : goSlice matchHash (d + 2) = some (matchHash.take (d + 2)) := by
        unfold goSlice
        rw [if_pos (by omega)]
      simp only [isHashSolved, if_neg hcond, hdd, h1, h2]
      simp
    · simp [isHashSolved, hl]

/-- Witness for C9 (amended): difficulty 20 panics on a 66-character hash,
difficulty 17 does not. -/
theorem isHashSolved_guard_range_spot :
    isHashSolved 20 (List.replicate 66 '0') = none ∧
    isHashSolved 17 (List.replicate 66 '0') ≠ none :=
  ⟨(isHashSolved_guard_range 20 (List.replicate 66 '0')).1 (by decide)
      (by decide) (by decide),
    (isHashSolved_guard_range 17 (List.replicate 66 '0')).2 (by decide)⟩

end BlockchainSpec

namespace BlockchainSpec

/-- Constant header-hash function used for concrete validation runs. -/
def constHashFn : BlockHeader → List Char := fun _ => zeroHash

/-- Constant merkle-root function used for concrete validation runs. -/
def constRootHex : Block → List Char := fun _ => zeroHash

/-- Transaction-free block with the given number and difficulty. -/
def plainBlock (num diff : Nat) : Block :=
  { header := { number := num, prevBlockHash := zeroHash, timeStamp := 0,
                beneficiaryID := "B", difficulty := diff, miningReward := 0,
                stateRoot := zeroHash, transRoot := zeroHash, nonce := 0 },
    trans := [] }

/-- C6 counterexample: with the previous block numbered `2^64 − 3` the Go
expression `nextNumber + 2` wraps to 0, so a block numbered exactly
`prev + 2` (difficulty and proof-of-work fine) is reported as
`ErrChainForked` instead of the generic block-invalid error. -/
theorem validateBlock_wrap_counterexample :
    (plainBlock (W64 - 1) 0).header.number =
      (plainBlock (W64 - 3) 0).header.number + 2 ∧
    isHashSolved (plainBlock (W64 - 1) 0).header.difficulty
      (blockHash constHashFn (plainBlock (W64 - 1) 0)) = some true ∧
    validateBlock constHashFn constRootHex (plainBlock (W64 - 1) 0)
      (plainBlock (W64 - 3) 0) zeroHash = some (some .chainForked) := by
  decide

/-- C6 (amended: the previous block's number must satisfy
`prev.number + 3 < 2^64`, since the uint64 expression `nextNumber + 2` wraps
otherwise): `ValidateBlock` returns `ErrChainForked` whenever
`b.number ≥ prev.number + 3`; a block numbered `prev.number + 2` that passes
the difficulty and proof-of-work checks gets the generic wrong-number error,
not `ErrChainForked`; and any run that gets past the block-number check has
`b.number = prev.number + 1`. -/
theorem validateBlock_fork_rules (hashFn : BlockHeader → List Char)
    (rootHex : Block → List Char) (b prev : Block) (stateRoot : List Char)
    (hn : prev.header.number + 3 < W64) :
    (prev.header.number + 3 ≤ b.header.number →
      validateBlock hashFn rootHex b prev stateRoot = some (some .chainForked)) ∧
    (b.header.number = prev.header.number + 2 →
      prev.header.difficulty ≤ b.header.difficulty →
      isHashSolved b.header.difficulty (blockHash hashFn b) = some true →
      validateBlock hashFn rootHex b prev stateRoot = some (some .wrongNumber)) ∧
    (validateBlock hashFn rootHex b prev stateRoot ≠ none →
      validateBlock hashFn rootHex b prev stateRoot ≠ some (some .chainForked) →
      validateBlock hashFn rootHex b prev stateRoot ≠ some (some .badDifficulty) →
      validateBlock hashFn rootHex b prev stateRoot ≠ some (some .hashNotSolved) →
      validateBlock hashFn rootHex b prev stateRoot ≠ some (some .wrongNumber) →
      b.header.number = prev.header.number + 1) := by
  have hA : add64 prev.header.number 1 = prev.header.number + 1 := by
    unfold add64
    exact Nat.mod_eq_of_lt (by omega)
  have hB : (prev.header.number + 1 + 2) % W64 = prev.header.number + 3 :=
    Nat.mod_eq_of_lt (by omega)
  refine ⟨?_, ?_, ?_⟩
  · intro hge
    simp only [validateBlock, hA, hB, if_pos hge]
  · intro h2 hdif hsol
    have c1 : ¬ (b.header.number ≥ prev.header.number + 3) := by omega
    have c2 : ¬ (b.header.difficulty < prev.header.difficulty) := by omega
    have c4 : b.header.number ≠ prev.header.number + 1 := by omega
    simp only [validateBlock, hA, hB, if_neg c1, if_neg c2, hsol, if_pos c4]
  · intro hnone hfork hdiff hsolErr hnum
    by_cases c1 : b.header.number ≥ prev.header.number + 3
    · exact absurd (by simp only [validateBlock, hA, hB, if_pos c1]) hfork
    · by_cases c2 : b.header.difficulty < prev.header.difficulty
      · exact absurd
          (by simp only [validateBlock, hA, hB, if_neg c1, if_pos c2]) hdiff
      · cases hcase : isHashSolved b.header.difficulty (blockHash hashFn b) with
        | none =>
          exact absurd
            (by simp only [validateBlock, hA, hB, if_neg c1, if_neg c2, hcase])
            hnone
        | some bv =>
          cases bv with
          | false =>
            exact absurd
              (by simp only [validateBlock, hA, hB, if_neg c1, if_neg c2, hcase])
              hsolErr
          | true =>
            by_cases c4 : b.header.number ≠ prev.header.number + 1
            · exact absurd
                (by simp only [validateBlock, hA, hB, if_neg c1, if_neg c2,
                  hcase, if_pos c4]) hnum
            · omega

/-- Witness for C6 (amended) at previous block number 5: number 8 forks,
number 7 (difficulty and PoW passing) is merely the wrong number. -/
theorem validateBlock_fork_rules_spot :
    validateBlock constHashFn constRootHex (plainBlock 8 0) (plainBlock 5 0)
      zeroHash = some (some .chainForked) ∧
    validateBlock constHashFn constRootHex (plainBlock 7 0) (plainBlock 5 0)
      zeroHash = some (some .wrongNumber) :=
  ⟨(validateBlock_fork_rules constHashFn constRootHex (plainBlock 8 0)
      (plainBlock 5 0) zeroHash (by decide)).1 (by decide),
    (validateBlock_fork_rules constHashFn constRootHex (plainBlock 7 0)
      (plainBlock 5 0) zeroHash (by decide)).2.1 (by decide) (by decide)
      (by decide)⟩

end BlockchainSpec

namespace BlockchainSpec

/-- C8: whenever `MineNewBlock` returns the cancellation error — the PoW
search was cancelled, or the context was found done right after it — the node
state is exactly as before: the mempool keeps every pending transaction and
the account database, latest block and storage are untouched. -/
theorem mineNewBlock_cancelled_state_unchanged (env : MineEnv) (s : NodeState)
    (h : (mineNewBlock env s).1 = .error .cancelled) :
    (mineNewBlock env s).2 = s := by
  unfold mineNewBlock POW at h ⊢
  by_cases h1 : s.mempool.length = 0
  · simp [h1] at h ⊢
  · by_cases h2 : env.powCancelled
    · simp [h1, h2]
    · by_cases h3 : env.ctxDoneAfterPow
      · simp [h1, h2, h3]
      · simp [h1, h2, h3] at h

/-- Scenario transaction of the spec's two-transaction block: sender `S`,
recipient `B`, value 100, tip 50, gas price 1, gas units 15, chain id 1. -/
def scenTx (n : Nat) : BlockTx :=
  { recoveredFrom := some "S", fromID := "S", toID := "B", chainID := 1,
    nonce := n, value := 100, tip := 50, gasPrice := 1, gasUnits := 15,
    timeStamp := 0 }

/-- Genesis parameters for the mining runs: chain id 1, difficulty 0, mining
reward 700, two transactions per block. -/
def genesisEx : Genesis :=
  { chainID := 1, difficulty := 0, miningReward := 700, transPerBlock := 2 }

/-- Node state before mining: sender `S` funded with 1000, one pending
transaction in the mempool, latest block the genesis block, empty storage. -/
def nodeStateEx : NodeState :=
  { genesis := genesisEx, beneficiaryID := "B",
    accounts := [("S", { id := "S", balance := 1000, nonce := 0 })],
    latestBlock := plainBlock 0 0, mempool := [("S:1", scenTx 1)],
    storageWrites := [] }

/-- Environment of a successful, uncancelled mining run. -/
def mineEnvOk : MineEnv :=
  { hashFn := constHashFn, transRootOf := fun _ => zeroHash,
    powCancelled := false, ctxDoneAfterPow := false, solvedNonce := 42,
    powTimeStamp := 99 }

/-- Environment of a mining run whose PoW search gets cancelled. -/
def mineEnvCancelled : MineEnv :=
  { mineEnvOk with powCancelled := true }

/-- Witness for C8: a concrete cancelled run returns the cancellation error
and leaves the node state untouched. -/
theorem mineNewBlock_cancelled_state_unchanged_spot :
    (mineNewBlock mineEnvCancelled nodeStateEx).1 = .error .cancelled ∧
    (mineNewBlock mineEnvCancelled nodeStateEx).2 = nodeStateEx :=
  ⟨rfl, mineNewBlock_cancelled_state_unchanged mineEnvCancelled nodeStateEx rfl⟩

/-- The block the successful run returns: state root still the `ZeroHash`
sentinel passed into the PoW, nonce 42, number 1. -/
def minedBlockEx : Block :=
  { header := { number := 1, prevBlockHash := zeroHash, timeStamp := 99,
                beneficiaryID := "B", difficulty := 0, miningReward := 700,
                stateRoot := zeroHash, transRoot := zeroHash, nonce := 42 },
    trans := [scenTx 1] }

/-- C1: on a successful `MineNewBlock` run the source deletes the picked
transactions from the mempool and returns the block, but — with the
`validateUpdateDatabase` call commented out ("HACK THIS FOR NOW") — no
transaction is applied, no reward is paid, the block's state root is still
the `ZeroHash` sentinel, the latest block is not updated and nothing is
written to storage. -/
theorem mineNewBlock_no_commit :
    (mineNewBlock mineEnvOk nodeStateEx).1 = .ok minedBlockEx ∧
    minedBlockEx.header.stateRoot = zeroHash ∧
    (mineNewBlock mineEnvOk nodeStateEx).2.mempool = [] ∧
    (mineNewBlock mineEnvOk nodeStateEx).2.accounts = nodeStateEx.accounts ∧
    (mineNewBlock mineEnvOk nodeStateEx).2.latestBlock = nodeStateEx.latestBlock ∧
    (mineNewBlock mineEnvOk nodeStateEx).2.storageWrites = [] :=
  ⟨rfl, rfl, rfl, rfl, rfl, rfl⟩

/-- Single transaction of 100 whose recipient is also the beneficiary. -/
def aliasTx : BlockTx :=
  { recoveredFrom := some "A", fromID := "A", toID := "B", chainID := 1,
    nonce := 1, value := 100, tip := 0, gasPrice := 0, gasUnits := 0,
    timeStamp := 0 }

/-- One-transaction block paying reward 50 to beneficiary `B`, the recipient
of `aliasTx`. -/
def aliasBlock : Block :=
  { header := { number := 1, prevBlockHash := zeroHash, timeStamp := 0,
                beneficiaryID := "B", difficulty := 0, miningReward := 50,
                stateRoot := zeroHash, transRoot := zeroHash, nonce := 0 },
    trans := [aliasTx] }

/-- Account map funding the sender `A` with 1000. -/
def aliasAccs : Accounts := [("A", { id := "A", balance := 1000, nonce := 0 })]

/-- C3: applying `aliasBlock` (one successful 100-unit transfer whose
recipient is the beneficiary, then the 50 reward) leaves a total of 950
instead of the claimed 1000 + 50: the final write
`db.accounts[beneficiary] = bnfc` overwrites the recipient's credit, so the
transferred 100 vanish and conservation fails. -/
theorem applyBlock_conservation_violation :
    sumBalances aliasAccs = 1000 ∧
    aliasBlock.header.miningReward = 50 ∧
    (applyTransaction 1 aliasAccs aliasBlock aliasTx).2 = none ∧
    sumBalances (applyBlock 1 aliasAccs aliasBlock) = 950 ∧
    sumBalances (applyBlock 1 aliasAccs aliasBlock) ≠
      sumBalances aliasAccs + aliasBlock.header.miningReward := by
  decide

/-- The spec's two-transaction block: nonces 1 and 2, difficulty 6 and
reward 700 for beneficiary `B`, the recipient of both transactions. -/
def scenBlock : Block :=
  { header := { number := 1, prevBlockHash := zeroHash, timeStamp := 0,
                beneficiaryID := "B", difficulty := 6, miningReward := 700,
                stateRoot := zeroHash, transRoot := zeroHash, nonce := 0 },
    trans := [scenTx 1, scenTx 2] }

/-- Accounts of the two-transaction scenario: sender `S` with 1000 and the
beneficiary `B` with 0. -/
def scenAccs : Accounts :=
  [("S", { id := "S", balance := 1000, nonce := 0 }),
   ("B", { id := "B", balance := 0, nonce := 0 })]

/-- C5: in the spec's two-transaction scenario both applications succeed and
the sender indeed loses 330, but the beneficiary — being also the recipient —
gains only 830, not the claimed 1030: the final write
`db.accounts[beneficiary] = bnfc` discards the recipient's `+100` credit of
each transaction. -/
theorem applyBlock_scenario_two_tx :
    (getAccount (applyBlock 1 scenAccs scenBlock) "S").balance = 1000 - 330 ∧
    (getAccount (applyBlock 1 scenAccs scenBlock) "S").nonce = 2 ∧
    (getAccount (applyBlock 1 scenAccs scenBlock) "B").balance = 830 ∧
    (getAccount (applyBlock 1 scenAccs scenBlock) "B").balance ≠ 1030 := by
  decide

end BlockchainSpec
